import Mathlib

/-!
Verification development for the Percolate repository (GLM-PCA).

The two source files, exponential_family.py and GLMPCA.py, are shallowly
embedded below.  Real numbers are modelled as exact rationals; the IEEE
infinities that the source manipulates explicitly (np.inf sentinels) are
modelled by an extended-value type.  Python exceptions are modelled by an
explicit result type.  Transcendental primitives (log, lgamma, digamma)
and the per-feature fitting helpers that live in repository modules not
present under src/ are modelled as opaque pure function parameters.
-/

/-- Result of running a piece of Python code: either a value or a raised
exception carrying its message. -/
inductive PyResult (α : Type) where
  | ok (a : α)
  | exn (msg : String)
deriving DecidableEq, Repr

namespace PyResult

def map {α β : Type} (f : α → β) : PyResult α → PyResult β
  | ok a => ok (f a)
  | exn m => exn m

end PyResult

/-!
## Family dispatch (exponential_family.py)

Each dispatcher in the source is an if/elif chain on the family string that
returns one of the per-family function objects (or raises, or falls off the
end of the function, which in Python returns None).  We model the returned
function object by a tag naming it; the tag is later interpreted by the
apply functions further below.
-/

/-- Python str.lower restricted to ASCII, which covers every alias string
appearing in the dispatchers.  (The library String.toLower does not reduce
in the kernel, so the map is spelled out.) -/
def pyLowerChar (c : Char) : Char :=
  if 65 ≤ c.toNat ∧ c.toNat ≤ 90 then Char.ofNat (c.toNat + 32) else c

/-- Models the .lower() calls of the family dispatchers. -/
def pyLower (s : String) : String := ⟨s.data.map pyLowerChar⟩

/-- Tag for the function object returned by G_fun (the log-partition). -/
inductive GTag where
  | gaussian | bernoulli | continuousBernoulli | poisson | multinomial
  | negativeBinomial | negativeBinomialReparam | beta | betaReparam
  | logNormal | gamma
deriving DecidableEq, Repr

/-- Tag for the function object returned by G_grad_fun (the mean function);
the multinomial branch raises instead of returning. -/
inductive GGradTag where
  | gaussian | bernoulli | continuousBernoulli | poisson
  | negativeBinomial | negativeBinomialReparam | beta | betaReparam
  | logNormal | gamma
deriving DecidableEq, Repr

/-- Tag for the function object returned by g_invertfun (the inverse link);
the multinomial branch raises instead of returning. -/
inductive GInvTag where
  | gaussian | bernoulli | continuousBernoulli | poisson
  | negativeBinomial | negativeBinomialReparam | beta | betaReparam
  | logNormal | gamma
deriving DecidableEq, Repr

/-- Tag for the function object returned by expt_term (the expectation
term). -/
inductive ExptTag where
  | gaussian | bernoulli | continuousBernoulli | poisson | multinomial
  | negativeBinomial | negativeBinomialReparam | beta | betaReparam
  | logNormal | gamma
deriving DecidableEq, Repr

/-- exponential_family.py, G_fun: dispatch from the family string to the
log-partition implementation.  The first five branches compare with plain
string equality; the remaining branches compare family.lower() against
alias lists; no branch matching means the Python function returns None. -/
def G_fun (family : String) : PyResult (Option GTag) :=
  if family = "bernoulli" then .ok (some .bernoulli)
  else if family = "continuous_bernoulli" then .ok (some .continuousBernoulli)
  else if family = "poisson" then .ok (some .poisson)
  else if family = "gaussian" then .ok (some .gaussian)
  else if family = "multinomial" then .ok (some .multinomial)
  else if pyLower family ∈ ["negative_binomial", "nb"] then .ok (some .negativeBinomial)
  else if pyLower family ∈ ["negative_binomial_reparam", "nb_rep"] then .ok (some .negativeBinomialReparam)
  else if pyLower family ∈ ["beta"] then .ok (some .beta)
  else if pyLower family ∈ ["beta_reparam", "beta_rep"] then .ok (some .betaReparam)
  else if pyLower family ∈ ["log_normal", "log normal", "lognorm"] then .ok (some .logNormal)
  else if pyLower family ∈ ["gamma"] then .ok (some .gamma)
  else .ok none

/-- exponential_family.py, G_grad_fun: dispatch to the mean-function
implementation; the multinomial branch raises NotImplementedError. -/
def G_grad_fun (family : String) : PyResult (Option GGradTag) :=
  if family = "bernoulli" then .ok (some .bernoulli)
  else if family = "continuous_bernoulli" then .ok (some .continuousBernoulli)
  else if family = "poisson" then .ok (some .poisson)
  else if family = "gaussian" then .ok (some .gaussian)
  else if family = "multinomial" then .exn "NotImplementedError: multinomial not implemented"
  else if pyLower family ∈ ["negative_binomial", "nb"] then .ok (some .negativeBinomial)
  else if pyLower family ∈ ["negative_binomial_reparam", "nb_rep"] then .ok (some .negativeBinomialReparam)
  else if pyLower family ∈ ["beta"] then .ok (some .beta)
  else if pyLower family ∈ ["beta_reparam", "beta_rep"] then .ok (some .betaReparam)
  else if pyLower family ∈ ["log_normal", "log normal", "lognorm"] then .ok (some .logNormal)
  else if pyLower family ∈ ["gamma"] then .ok (some .gamma)
  else .ok none

/-- exponential_family.py, g_invertfun: dispatch to the inverse-link
implementation; the multinomial branch raises NotImplementedError.  (In the
source the first two branches are separate if statements, the rest an
elif chain; since every branch returns, the semantics is the same chain.) -/
def g_invertfun (family : String) : PyResult (Option GInvTag) :=
  if family = "bernoulli" then .ok (some .bernoulli)
  else if family = "continuous_bernoulli" then .ok (some .continuousBernoulli)
  else if family = "poisson" then .ok (some .poisson)
  else if family = "gaussian" then .ok (some .gaussian)
  else if family = "multinomial" then .exn "NotImplementedError: multinomial not implemented"
  else if pyLower family ∈ ["negative_binomial", "nb"] then .ok (some .negativeBinomial)
  else if pyLower family ∈ ["negative_binomial_reparam", "nb_rep"] then .ok (some .negativeBinomialReparam)
  else if pyLower family ∈ ["beta"] then .ok (some .beta)
  else if pyLower family ∈ ["beta_reparam", "beta_rep"] then .ok (some .betaReparam)
  else if pyLower family ∈ ["log_normal", "log normal", "lognorm"] then .ok (some .logNormal)
  else if pyLower family ∈ ["gamma"] then .ok (some .gamma)
  else .ok none

/-- exponential_family.py, expt_term: dispatch to the expectation-term
implementation. -/
def expt_term (family : String) : PyResult (Option ExptTag) :=
  if family = "bernoulli" then .ok (some .bernoulli)
  else if family = "continuous_bernoulli" then .ok (some .continuousBernoulli)
  else if family = "poisson" then .ok (some .poisson)
  else if family = "gaussian" then .ok (some .gaussian)
  else if family = "multinomial" then .ok (some .multinomial)
  else if pyLower family ∈ ["negative_binomial", "nb"] then .ok (some .negativeBinomial)
  else if pyLower family ∈ ["negative_binomial_reparam", "nb_rep"] then .ok (some .negativeBinomialReparam)
  else if pyLower family ∈ ["beta"] then .ok (some .beta)
  else if pyLower family ∈ ["beta_reparam", "beta_rep"] then .ok (some .betaReparam)
  else if pyLower family ∈ ["log_normal", "log normal", "lognorm"] then .ok (some .logNormal)
  else if pyLower family ∈ ["gamma"] then .ok (some .gamma)
  else .ok none

example : G_fun "Gaussian" = .ok none := by decide
example : G_fun "NB" = .ok (some .negativeBinomial) := by decide
example : g_invertfun "multinomial" = .exn "NotImplementedError: multinomial not implemented" := by decide

/-!
## Scalar family functions (exponential_family.py, elementwise view)

The torch functions act elementwise; we model the scalar action on exact
rationals.  Transcendental primitives are abstract function parameters.
Python dict access raises KeyError on a missing key.
-/

/-- Abstract transcendental primitives used by the scalar family
functions. -/
structure QPrims where
  lgamma : ℚ → ℚ
  digamma : ℚ → ℚ

/-- Python dict subscript on a string-keyed mapping of scalars: the value,
or a raised KeyError. -/
def pyGet (params : List (String × ℚ)) (k : String) : PyResult ℚ :=
  match params.find? (fun kv => kv.1 == k) with
  | some kv => .ok kv.2
  | none => .exn ("KeyError: " ++ k)

/-- exponential_family.py, G_beta: log-partition of the plain beta family,
beta = params of key beta. -/
def G_beta (P : QPrims) (x : ℚ) (params : List (String × ℚ)) : PyResult ℚ :=
  (pyGet params "beta").map fun beta =>
    P.lgamma x + P.lgamma beta - P.lgamma (x + beta)

/-- exponential_family.py, G_grad_beta: mean function of the plain beta
family.  The source reads the shape parameter under the key b. -/
def G_grad_beta (P : QPrims) (eta : ℚ) (params : List (String × ℚ)) : PyResult ℚ :=
  (pyGet params "b").map fun beta =>
    P.digamma eta - P.digamma (eta + beta)

/-- exponential_family.py, expt_beta: raises NotImplementedError on any
input. -/
def expt_beta {α : Type} (_data _saturated_params : α)
    (_params : List (String × ℚ)) : PyResult α :=
  .exn "NotImplementedError"

/-!
## The loading-fit objective (exponential_family.py, make_saturated_loading_cost)

Matrices are total functions on Fin indices with exact rational entries.
The family log-partition Gf and expectation term Tf are the elementwise
scalar functions selected by G_fun and expt_term for the chosen family;
they are parameters here because their bodies are transcendental.
-/

/-- torch.clip with bounds lo, hi, elementwise scalar action. -/
def qclip (lo hi x : ℚ) : ℚ := min (max x lo) hi

/-- torch.matmul on rational matrices. -/
def mat_mul {a b c : ℕ} (A : Fin a → Fin b → ℚ) (B : Fin b → Fin c → ℚ) :
    Fin a → Fin c → ℚ :=
  fun i j => ∑ l, A i l * B l j

/-- exponential_family.py, make_saturated_loading_cost: builds the scalar
objective.  X are the candidate loadings (p times k), data and parameters
are n times p, intercept defaults to the zero vector when absent.  The
projected natural parameter is clipped only when train is false, and the
objective is the total log-partition minus the total expectation term. -/
def make_saturated_loading_cost {n p k : ℕ} (Gf : ℚ → ℚ) (Tf : ℚ → ℚ → ℚ)
    (max_value : ℚ) (train : Bool)
    (X : Fin p → Fin k → ℚ) (data : Fin n → Fin p → ℚ)
    (parameters : Fin n → Fin p → ℚ) (intercept : Option (Fin p → ℚ)) : ℚ :=
  let ic : Fin p → ℚ := match intercept with
    | some v => v
    | none => fun _ => 0
  let eta : Fin n → Fin p → ℚ :=
    fun i j => mat_mul (fun i lI => parameters i lI - ic lI)
      (mat_mul X (fun mI j => X j mI)) i j + ic j
  let etaC : Fin n → Fin p → ℚ :=
    if train then eta else fun i j => qclip (-max_value) max_value (eta i j)
  let c := ∑ i, ∑ j, Gf (etaC i j)
  let d := ∑ i, ∑ j, Tf (data i j) (etaC i j)
  c - d

/-- C1.  The objective built by make_saturated_loading_cost equals
sum G(eta) minus sum T(data, eta), where eta is the rank-k projection
(parameters minus intercept) times X X-transpose plus intercept, the
intercept defaulting to zero when absent; eta is clipped to plus/minus
max_value exactly when train is false and never when train is true. -/
theorem claim_C1 {n p k : ℕ} (Gf : ℚ → ℚ) (Tf : ℚ → ℚ → ℚ)
    (max_value : ℚ) (train : Bool)
    (X : Fin p → Fin k → ℚ) (data : Fin n → Fin p → ℚ)
    (parameters : Fin n → Fin p → ℚ) (intercept : Option (Fin p → ℚ)) :
    make_saturated_loading_cost Gf Tf max_value train X data parameters intercept =
      (∑ i, ∑ j, Gf
        (if train = false
          then min (max ((∑ l, (parameters i l - (intercept.getD fun _ => 0) l) *
              (∑ m, X l m * X j m)) + (intercept.getD fun _ => 0) j) (-max_value)) max_value
          else (∑ l, (parameters i l - (intercept.getD fun _ => 0) l) *
              (∑ m, X l m * X j m)) + (intercept.getD fun _ => 0) j))
      - ∑ i, ∑ j, Tf (data i j)
        (if train = false
          then min (max ((∑ l, (parameters i l - (intercept.getD fun _ => 0) l) *
              (∑ m, X l m * X j m)) + (intercept.getD fun _ => 0) j) (-max_value)) max_value
          else (∑ l, (parameters i l - (intercept.getD fun _ => 0) l) *
              (∑ m, X l m * X j m)) + (intercept.getD fun _ => 0) j) := by
  cases train <;> cases intercept <;>
    simp [make_saturated_loading_cost, mat_mul, qclip, Option.getD]

/-- C9 exhibit.  On a nuisance mapping carrying the shape under the key
beta, the log-partition G_beta returns lgamma(x) + lgamma(beta) -
lgamma(x+beta), but the mean function G_grad_beta raises KeyError because
the source reads the key b. -/
theorem claim_C9 (P : QPrims) (x b : ℚ) :
    G_beta P x [("beta", b)] = .ok (P.lgamma x + P.lgamma b - P.lgamma (x + b)) ∧
    G_grad_beta P x [("beta", b)] = .exn "KeyError: b" := by
  constructor <;> simp [G_beta, G_grad_beta, pyGet, PyResult.map, List.find?]

/-- C3 counterexample.  The inverse link for the plain beta family does not
fail with a not-supported error: g_invertfun returns the root-finding
implementation g_invert_beta. -/
theorem claim_C3_counterexample :
    g_invertfun "beta" = .ok (some GInvTag.beta) := by decide

/-- C3 amended.  The multinomial mean function and inverse link fail
immediately with NotImplementedError, and invoking the beta expectation
term expt_beta fails with NotImplementedError; the beta inverse link,
however, is dispatched to an actual implementation. -/
theorem claim_C3_amended {α : Type} (d sp : α) (params : List (String × ℚ)) :
    G_grad_fun "multinomial" = .exn "NotImplementedError: multinomial not implemented" ∧
    g_invertfun "multinomial" = .exn "NotImplementedError: multinomial not implemented" ∧
    expt_term "beta" = .ok (some ExptTag.beta) ∧
    expt_beta d sp params = (.exn "NotImplementedError" : PyResult α) ∧
    g_invertfun "beta" = .ok (some GInvTag.beta) := by
  refine ⟨by decide, by decide, by decide, rfl, by decide⟩

/-!
## Extended values

Tensor entries in GLMPCA.py are floats: exact rationals extended with the
two infinities the source assigns explicitly (np.inf) and the NaN that
float arithmetic can produce.  Arithmetic follows the IEEE conventions on
the extended points and is exact on rationals.
-/

/-- A float value: NaN, plus/minus infinity, or an exact rational. -/
inductive EVal where
  | nan
  | inf
  | ninf
  | val (q : ℚ)
deriving DecidableEq, Repr

namespace EVal

def neg : EVal → EVal
  | nan => nan
  | inf => ninf
  | ninf => inf
  | val q => val (-q)

def add : EVal → EVal → EVal
  | nan, _ => nan
  | _, nan => nan
  | inf, ninf => nan
  | ninf, inf => nan
  | inf, _ => inf
  | _, inf => inf
  | ninf, _ => ninf
  | _, ninf => ninf
  | val a, val b => val (a + b)

def sub (a b : EVal) : EVal := a.add b.neg

def mul : EVal → EVal → EVal
  | nan, _ => nan
  | _, nan => nan
  | inf, inf => inf
  | inf, ninf => ninf
  | ninf, inf => ninf
  | ninf, ninf => inf
  | inf, val b => if b = 0 then nan else if 0 < b then inf else ninf
  | val a, inf => if a = 0 then nan else if 0 < a then inf else ninf
  | ninf, val b => if b = 0 then nan else if 0 < b then ninf else inf
  | val a, ninf => if a = 0 then nan else if 0 < a then ninf else inf
  | val a, val b => val (a * b)

def div : EVal → EVal → EVal
  | nan, _ => nan
  | _, nan => nan
  | inf, inf => nan
  | inf, ninf => nan
  | ninf, inf => nan
  | ninf, ninf => nan
  | inf, val b => if 0 ≤ b then inf else ninf
  | ninf, val b => if 0 ≤ b then ninf else inf
  | val _, inf => val 0
  | val _, ninf => val 0
  | val a, val b =>
    if b = 0 then (if a = 0 then nan else if 0 < a then inf else ninf)
    else val (a / b)

/-- The comparison v > c against a rational constant (False on NaN, as for
floats). -/
def gtQ : EVal → ℚ → Bool
  | nan, _ => false
  | inf, _ => true
  | ninf, _ => false
  | val q, c => decide (c < q)

/-- The comparison v < c against a rational constant (False on NaN). -/
def ltQ : EVal → ℚ → Bool
  | nan, _ => false
  | inf, _ => false
  | ninf, _ => true
  | val q, c => decide (q < c)

/-- torch.isnan, elementwise. -/
def isnanE : EVal → Bool
  | nan => true
  | _ => false

/-- torch.clip(x, -m, m) elementwise: NaN propagates, infinities land on
the bounds, rationals are clamped. -/
def clipR (m : ℚ) : EVal → EVal
  | nan => nan
  | inf => val m
  | ninf => val (-m)
  | val q => val (min (max q (-m)) m)

/-- x.clip(t) elementwise (lower bound only). -/
def clipMinR (t : ℚ) : EVal → EVal
  | nan => nan
  | inf => inf
  | ninf => val t
  | val q => val (max q t)

end EVal

/-- GLMPCA.py, compute_saturated_params, negative-binomial branch:
torch.where((r > 0.01) and (not torch.isnan(r)) and (r < 10^4))[0], the
ordered list of feature indices passing the dispersion validity bounds. -/
def compute_gene_filter (r : List EVal) : List ℕ :=
  (List.range r.length).filter fun j =>
    (r.getD j .nan).gtQ (1/100) && !(r.getD j .nan).isnanE && (r.getD j .nan).ltQ (10^4)

/-- C4.  The gene filter contains an index j exactly when the j-th
dispersion entry is a rational with 0.01 < r j < 10^4 (in particular NaN
and infinite entries are excluded), and it lists each such index once. -/
theorem claim_C4 (r : List EVal) :
    (∀ j : ℕ, j ∈ compute_gene_filter r ↔
      ∃ q : ℚ, r.get? j = some (EVal.val q) ∧ 1/100 < q ∧ q < 10^4) ∧
    (compute_gene_filter r).Nodup := by
  constructor
  · intro j
    simp only [compute_gene_filter, List.mem_filter, List.mem_range,
      Bool.and_eq_true, Bool.not_eq_true']
    constructor
    · rintro ⟨hj, ⟨hgt, hnn⟩, hlt⟩
      simp only [List.getD_eq_getElem?_getD] at hgt hnn hlt
      cases hsome : r[j]? with
      | none => exact absurd (List.getElem?_eq_none_iff.mp hsome) (by omega)
      | some v =>
        rw [hsome] at hgt hnn hlt
        simp only [Option.getD_some] at hgt hnn hlt
        cases v with
        | nan => simp [EVal.isnanE] at hnn
        | inf => simp [EVal.ltQ] at hlt
        | ninf => simp [EVal.gtQ] at hgt
        | val q =>
          simp only [EVal.gtQ, EVal.ltQ, decide_eq_true_eq] at hgt hlt
          exact ⟨q, by rw [List.get?_eq_getElem?, hsome], hgt, hlt⟩
    · rintro ⟨q, hget, hgt, hlt⟩
      have hj : j < r.length := by
        by_contra hge
        rw [List.get?_eq_getElem?, List.getElem?_eq_none (by omega)] at hget
        exact Option.noConfusion hget
      have hsome : r[j]? = some (EVal.val q) := by
        rw [← List.get?_eq_getElem?]; exact hget
      refine ⟨hj, ⟨?_, ?_⟩, ?_⟩ <;>
        simp only [List.getD_eq_getElem?_getD, hsome, Option.getD_some,
          EVal.gtQ, EVal.ltQ, EVal.isnanE, decide_eq_true_eq]
      · exact hgt
      · exact hlt
  · exact (List.nodup_range _).filter _

/-!
## Store semantics for compute_saturated_params (GLMPCA.py)

The inverse-link functions of exponential_family.py mix out-of-place torch
expressions with explicit deepcopy followed by in-place masked assignment,
and g_invert_gaussian returns its argument itself.  To state which buffers
a call writes, tensors live in an explicit store of buffers addressed by
references; allocation appends a buffer, in-place assignment overwrites
one.  Transcendental scalars and the per-feature fitting helpers from the
repository modules absent from src/ are opaque fields of Prims.
-/

/-- A tensor buffer: rows of float values. -/
abbrev Mat := List (List EVal)

abbrev Ref := ℕ

/-- The heap of tensor buffers. -/
abbrev Store := List Mat

/-- Dereference a buffer. -/
def readBuf (s : Store) (r : Ref) : Mat := s.getD r []

/-- Allocate a fresh buffer holding m; models every out-of-place torch
expression and deepcopy. -/
def alloc (s : Store) (m : Mat) : Store × Ref := (s ++ [m], s.length)

/-- Overwrite an existing buffer in place; models masked assignment
y[mask] = v. -/
def setBuf (s : Store) (r : Ref) (m : Mat) : Store := s.set r m

/-- Elementwise map over a buffer value. -/
def matMap (f : EVal → EVal) (m : Mat) : Mat := m.map fun row => row.map f

/-- Elementwise binary op against a per-column vector (torch row
broadcasting). -/
def matZipCol (f : EVal → EVal → EVal) (m : Mat) (v : List EVal) : Mat :=
  m.map fun row => List.zipWith f row v

/-- Column selection X[:, js] (advanced indexing, which copies). -/
def sliceCols (m : Mat) (js : List ℕ) : Mat :=
  m.map fun row => js.map fun j => row.getD j .nan

/-- One column of a buffer value. -/
def colOf (m : Mat) (j : ℕ) : List EVal := m.map fun row => row.getD j .nan

/-- Number of columns (x.shape[1]). -/
def nColsOf (m : Mat) : ℕ := (m.headD []).length

/-- torch.Tensor(list of per-column results).T: rebuild a matrix from its
columns. -/
def fromCols (cols : List (List EVal)) (nrows : ℕ) : Mat :=
  (List.range nrows).map fun i => cols.map fun c => c.getD i .nan

/-- Opaque primitives: the transcendental scalar map torch.log, the two
floor constants, and the per-feature fitting helpers that live in the
repository modules beta_routines.py, log_normal.py, gamma.py and
negative_binomial_routines.py, which are not under src/. -/
structure Prims where
  /-- torch.log, elementwise scalar action. -/
  log : EVal → EVal
  /-- Modelled from the spec: LOG_NORMAL_ZERO_THRESHOLD of the missing
  log_normal module, a small positive floor added before logarithms. -/
  lnThreshold : ℚ
  /-- Modelled from the spec: GAMMA_ZERO_THRESHOLD of the missing gamma
  module, the analogous positive floor for the gamma family. -/
  gammaThreshold : ℚ
  /-- Modelled from the spec: compute_alpha_gene of the missing
  beta_routines module, the deterministic per-feature root-finder mapping a
  shape parameter and one observed column to per-sample natural
  parameters. -/
  compute_alpha_gene : EVal → List EVal → List EVal
  /-- Modelled from the spec: compute_mu_gene of the missing beta_routines
  module, the per-feature root-finder for the reparametrized beta mean. -/
  compute_mu_gene : EVal → List EVal → List EVal
  /-- Modelled from the spec: compute_gamma_saturated_params_gene of the
  missing gamma module, the per-feature gamma root-finder. -/
  compute_gamma_saturated_params_gene : EVal → List EVal → List EVal
  /-- Modelled from the spec: compute_dispersion of the missing
  negative_binomial_routines module, one dispersion value per feature. -/
  compute_dispersion : Mat → List EVal
  /-- Modelled from the spec: scipy beta fit with loc 0 and scale 1; the
  sum of the two fitted shape parameters, per feature. -/
  beta_fit_nu : List EVal → EVal
  /-- Modelled from the spec: scipy beta fit; the second fitted shape
  parameter, per feature. -/
  beta_fit_b : List EVal → EVal
  /-- Modelled from the spec: scipy lognorm fit with loc 0; the fitted
  shape parameter, per feature. -/
  lognorm_fit_shape : List EVal → EVal
  /-- Modelled from the spec: scipy gamma fit with loc 0; the reciprocal of
  the fitted scale, per feature. -/
  gamma_fit_nu : List EVal → EVal

/-- The exp_family_params mapping of the estimator, with its possible
keys. -/
structure FamParams where
  r : Option (List EVal)
  gene_filter : Option (List ℕ)
  nu : Option (List EVal)
  beta : Option (List EVal)
  n_jobs : Option ℕ
deriving DecidableEq, Repr

/-- The empty dict assigned by self.exp_family_params = {}. -/
def emptyFamParams : FamParams :=
  { r := none, gene_filter := none, nu := none, beta := none, n_jobs := none }

/-- exponential_family.py, g_invert_bernoulli: y = deepcopy(x); then the
out-of-place expression torch.log(y/(1-y)) rebinds y to a fresh tensor. -/
def g_invert_bernoulli (P : Prims) (s : Store) (x : Ref) : Store × PyResult Ref :=
  let a1 := alloc s (readBuf s x)
  let a2 := alloc a1.1
    (matMap (fun v => P.log (v.div ((EVal.val 1).sub v))) (readBuf a1.1 a1.2))
  (a2.1, .ok a2.2)

/-- exponential_family.py, g_invert_continuous_bernoulli: y = deepcopy(x);
y[y==0] = -inf and y[y==1] = inf assign in place on the copy. -/
def g_invert_continuous_bernoulli (_P : Prims) (s : Store) (x : Ref) :
    Store × PyResult Ref :=
  let a1 := alloc s (readBuf s x)
  let s2 := setBuf a1.1 a1.2
    (matMap (fun v => if v = EVal.val 0 then EVal.ninf else v) (readBuf a1.1 a1.2))
  let s3 := setBuf s2 a1.2
    (matMap (fun v => if v = EVal.val 1 then EVal.inf else v) (readBuf s2 a1.2))
  (s3, .ok a1.2)

/-- exponential_family.py, g_invert_gaussian: returns its argument, the
same tensor object. -/
def g_invert_gaussian (_P : Prims) (s : Store) (x : Ref) : Store × PyResult Ref :=
  (s, .ok x)

/-- exponential_family.py, g_invert_poisson: y = deepcopy(x); y[y==0] =
-inf and y[y>0] = log(y[y>0]) assign in place on the copy. -/
def g_invert_poisson (P : Prims) (s : Store) (x : Ref) : Store × PyResult Ref :=
  let a1 := alloc s (readBuf s x)
  let s2 := setBuf a1.1 a1.2
    (matMap (fun v => if v = EVal.val 0 then EVal.ninf else v) (readBuf a1.1 a1.2))
  let s3 := setBuf s2 a1.2
    (matMap (fun v => if v.gtQ 0 then P.log v else v) (readBuf s2 a1.2))
  (s3, .ok a1.2)

/-- exponential_family.py, g_invert_negative_binomial: the out-of-place
expression torch.log(x/(x+r)) with the per-feature dispersion r from the
params mapping. -/
def g_invert_negative_binomial (P : Prims) (params : Option FamParams)
    (s : Store) (x : Ref) : Store × PyResult Ref :=
  match params with
  | none => (s, .exn "TypeError: NoneType is not subscriptable")
  | some ps =>
    match ps.r with
    | none => (s, .exn "KeyError: r")
    | some r =>
      let a := alloc s
        (matZipCol (fun v rj => P.log (v.div (v.add rj))) (readBuf s x) r)
      (a.1, .ok a.2)

/-- exponential_family.py, g_invert_negative_binomial_reparametrized:
torch.log(r*r/x), with r restricted to the gene filter when its length
disagrees with the number of columns of x. -/
def g_invert_negative_binomial_reparametrized (P : Prims)
    (params : Option FamParams) (s : Store) (x : Ref) : Store × PyResult Ref :=
  match params with
  | none => (s, .exn "TypeError: NoneType is not subscriptable")
  | some ps =>
    match ps.r with
    | none => (s, .exn "KeyError: r")
    | some r =>
      if r.length ≠ nColsOf (readBuf s x) then
        match ps.gene_filter with
        | none => (s, .exn "KeyError: gene_filter")
        | some gf =>
          let rf := gf.map fun j => r.getD j .nan
          let a := alloc s
            (matZipCol (fun v rj => P.log ((rj.mul rj).div v)) (readBuf s x) rf)
          (a.1, .ok a.2)
      else
        let a := alloc s
          (matZipCol (fun v rj => P.log ((rj.mul rj).div v)) (readBuf s x) r)
        (a.1, .ok a.2)

/-- exponential_family.py, g_invert_beta: per-column root-finding via
compute_alpha_gene, gathered into a fresh tensor. -/
def g_invert_beta (P : Prims) (params : Option FamParams) (s : Store) (x : Ref) :
    Store × PyResult Ref :=
  match params with
  | none => (s, .exn "TypeError: NoneType is not subscriptable")
  | some ps =>
    match ps.beta with
    | none => (s, .exn "KeyError: beta")
    | some b =>
      let m := readBuf s x
      let cols := (List.range (nColsOf m)).map fun j =>
        P.compute_alpha_gene (b.getD j .nan) (colOf m j)
      let a := alloc s (fromCols cols m.length)
      (a.1, .ok a.2)

/-- exponential_family.py, g_invert_beta_reparametrized: per-column
root-finding via compute_mu_gene, gathered into a fresh tensor. -/
def g_invert_beta_reparametrized (P : Prims) (params : Option FamParams)
    (s : Store) (x : Ref) : Store × PyResult Ref :=
  match params with
  | none => (s, .exn "TypeError: NoneType is not subscriptable")
  | some ps =>
    match ps.nu with
    | none => (s, .exn "KeyError: nu")
    | some nu =>
      let m := readBuf s x
      let cols := (List.range (nColsOf m)).map fun j =>
        P.compute_mu_gene (nu.getD j .nan) (colOf m j)
      let a := alloc s (fromCols cols m.length)
      (a.1, .ok a.2)

/-- exponential_family.py, g_invert_log_normal:
torch.log(x.clip(LOG_NORMAL_ZERO_THRESHOLD)), out of place. -/
def g_invert_log_normal (P : Prims) (s : Store) (x : Ref) : Store × PyResult Ref :=
  let a := alloc s
    (matMap (fun v => P.log (EVal.clipMinR P.lnThreshold v)) (readBuf s x))
  (a.1, .ok a.2)

/-- exponential_family.py, g_invert_gamma: per-column root-finding on the
floor-clipped column, gathered into a fresh tensor. -/
def g_invert_gamma (P : Prims) (params : Option FamParams) (s : Store) (x : Ref) :
    Store × PyResult Ref :=
  match params with
  | none => (s, .exn "TypeError: NoneType is not subscriptable")
  | some ps =>
    match ps.nu with
    | none => (s, .exn "KeyError: nu")
    | some nu =>
      let m := readBuf s x
      let cols := (List.range (nColsOf m)).map fun j =>
        P.compute_gamma_saturated_params_gene (nu.getD j .nan)
          ((colOf m j).map (EVal.clipMinR P.gammaThreshold))
      let a := alloc s (fromCols cols m.length)
      (a.1, .ok a.2)

/-- Apply the function object returned by g_invertfun to a tensor and a
params mapping. -/
def g_invert_apply (t : GInvTag) (P : Prims) (params : Option FamParams)
    (s : Store) (x : Ref) : Store × PyResult Ref :=
  match t with
  | .bernoulli => g_invert_bernoulli P s x
  | .continuousBernoulli => g_invert_continuous_bernoulli P s x
  | .gaussian => g_invert_gaussian P s x
  | .poisson => g_invert_poisson P s x
  | .negativeBinomial => g_invert_negative_binomial P params s x
  | .negativeBinomialReparam => g_invert_negative_binomial_reparametrized P params s x
  | .beta => g_invert_beta P params s x
  | .betaReparam => g_invert_beta_reparametrized P params s x
  | .logNormal => g_invert_log_normal P s x
  | .gamma => g_invert_gamma P params s x

/-- GLMPCA.py, compute_saturated_params, negative-binomial estimation path:
r = 1 / compute_dispersion(X) and the gene filter from it. -/
def nb_estimate (P : Prims) (s : Store) (x : Ref) : List EVal × List ℕ :=
  let r0 := (P.compute_dispersion (readBuf s x)).map fun d => (EVal.val 1).div d
  (r0, compute_gene_filter r0)

/-- GLMPCA.py, compute_saturated_params, branch for the negative-binomial
families.  Reuses r and gene_filter from the argument mapping when the r
key is present, otherwise estimates both; under save_family_params stores
the unfiltered r and a recomputed filter on the estimator.  The data is
column-sliced by the filter (a copy) and handed to the inverse link
together with the estimator-held mapping (the local filtered r is a dead
store in the source). -/
def csp_nb_branch (family : String) (P : Prims) (selfP argP : Option FamParams)
    (saveF : Bool) (s : Store) (x : Ref) : Store × PyResult Ref :=
  let est : PyResult (List EVal × List ℕ) :=
    match argP with
    | some ps =>
      match ps.r with
      | some r0 =>
        match ps.gene_filter with
        | some gf => .ok (r0, gf)
        | none => .exn "KeyError: gene_filter"
      | none => .ok (nb_estimate P s x)
    | none => .ok (nb_estimate P s x)
  match est with
  | .exn e => (s, .exn e)
  | .ok (r0, gf) =>
    let selfP2 := if saveF then
        some { (selfP.getD emptyFamParams) with
                r := some r0, gene_filter := some (compute_gene_filter r0) }
      else selfP
    let a := alloc s (sliceCols (readBuf s x) gf)
    match g_invertfun family with
    | .exn e => (a.1, .exn e)
    | .ok none => (a.1, .exn "TypeError: NoneType is not callable")
    | .ok (some t) => g_invert_apply t P selfP2 a.1 a.2

/-- GLMPCA.py, compute_saturated_params, branch for beta_reparam: reuse or
estimate nu, store it under save_family_params, insist the estimator
mapping exists and holds n_jobs, then apply the inverse link with the
estimator-held mapping. -/
def csp_beta_rep_branch (family : String) (P : Prims) (selfP argP : Option FamParams)
    (saveF : Bool) (nJobs : ℕ) (s : Store) (x : Ref) : Store × PyResult Ref :=
  let nu : List EVal :=
    match argP with
    | some ps =>
      match ps.nu with
      | some nu0 => nu0
      | none => (List.range (nColsOf (readBuf s x))).map fun j =>
          P.beta_fit_nu (colOf (readBuf s x) j)
    | none => (List.range (nColsOf (readBuf s x))).map fun j =>
        P.beta_fit_nu (colOf (readBuf s x) j)
  let selfP2 := if saveF then
      some { (selfP.getD emptyFamParams) with nu := some nu, n_jobs := some nJobs }
    else selfP
  match selfP2 with
  | none => (s, .exn "TypeError: argument of type NoneType is not iterable")
  | some ps2 =>
    let ps3 := match ps2.n_jobs with
      | none => { ps2 with n_jobs := some nJobs }
      | some _ => ps2
    match g_invertfun family with
    | .exn e => (s, .exn e)
    | .ok none => (s, .exn "TypeError: NoneType is not callable")
    | .ok (some t) => g_invert_apply t P (some ps3) s x

/-- GLMPCA.py, compute_saturated_params, branch for plain beta: reuse or
estimate the shape vector, store it under save_family_params, insist the
estimator mapping exists and holds n_jobs, then apply the inverse link. -/
def csp_beta_branch (family : String) (P : Prims) (selfP argP : Option FamParams)
    (saveF : Bool) (nJobs : ℕ) (s : Store) (x : Ref) : Store × PyResult Ref :=
  let b : List EVal :=
    match argP with
    | some ps =>
      match ps.beta with
      | some b0 => b0
      | none => (List.range (nColsOf (readBuf s x))).map fun j =>
          P.beta_fit_b (colOf (readBuf s x) j)
    | none => (List.range (nColsOf (readBuf s x))).map fun j =>
        P.beta_fit_b (colOf (readBuf s x) j)
  let selfP2 := if saveF then
      some { (selfP.getD emptyFamParams) with beta := some b, n_jobs := some nJobs }
    else selfP
  match selfP2 with
  | none => (s, .exn "TypeError: argument of type NoneType is not iterable")
  | some ps2 =>
    let ps3 := match ps2.n_jobs with
      | none => { ps2 with n_jobs := some nJobs }
      | some _ => ps2
    match g_invertfun family with
    | .exn e => (s, .exn e)
    | .ok none => (s, .exn "TypeError: NoneType is not callable")
    | .ok (some t) => g_invert_apply t P (some ps3) s x

/-- GLMPCA.py, compute_saturated_params, branch for log_normal: reuse or
estimate nu, store it under save_family_params (no n_jobs handling in this
branch), then apply the inverse link with the estimator-held mapping. -/
def csp_log_normal_branch (family : String) (P : Prims) (selfP argP : Option FamParams)
    (saveF : Bool) (s : Store) (x : Ref) : Store × PyResult Ref :=
  let nu : List EVal :=
    match argP with
    | some ps =>
      match ps.nu with
      | some nu0 => nu0
      | none => (List.range (nColsOf (readBuf s x))).map fun j =>
          P.lognorm_fit_shape (colOf (readBuf s x) j)
    | none => (List.range (nColsOf (readBuf s x))).map fun j =>
        P.lognorm_fit_shape (colOf (readBuf s x) j)
  let selfP2 := if saveF then
      some { (selfP.getD emptyFamParams) with nu := some nu }
    else selfP
  match g_invertfun family with
  | .exn e => (s, .exn e)
  | .ok none => (s, .exn "TypeError: NoneType is not callable")
  | .ok (some t) => g_invert_apply t P selfP2 s x

/-- GLMPCA.py, compute_saturated_params, branch for gamma: reuse or
estimate nu, store nu and n_jobs under save_family_params, then apply the
inverse link with the estimator-held mapping. -/
def csp_gamma_branch (family : String) (P : Prims) (selfP argP : Option FamParams)
    (saveF : Bool) (nJobs : ℕ) (s : Store) (x : Ref) : Store × PyResult Ref :=
  let nu : List EVal :=
    match argP with
    | some ps =>
      match ps.nu with
      | some nu0 => nu0
      | none => (List.range (nColsOf (readBuf s x))).map fun j =>
          P.gamma_fit_nu (colOf (readBuf s x) j)
    | none => (List.range (nColsOf (readBuf s x))).map fun j =>
        P.gamma_fit_nu (colOf (readBuf s x) j)
  let selfP2 := if saveF then
      some { (selfP.getD emptyFamParams) with nu := some nu, n_jobs := some nJobs }
    else selfP
  match g_invertfun family with
  | .exn e => (s, .exn e)
  | .ok none => (s, .exn "TypeError: NoneType is not callable")
  | .ok (some t) => g_invert_apply t P selfP2 s x

/-- GLMPCA.py, compute_saturated_params, final branch (gaussian, bernoulli,
continuous_bernoulli, poisson and any unrecognized family): apply the
inverse link directly; save_family_params only initializes an empty
mapping. -/
def csp_generic_branch (family : String) (P : Prims) (selfP : Option FamParams)
    (saveF : Bool) (s : Store) (x : Ref) : Store × PyResult Ref :=
  let selfP2 := if saveF then some (selfP.getD emptyFamParams) else selfP
  match g_invertfun family with
  | .exn e => (s, .exn e)
  | .ok none => (s, .exn "TypeError: NoneType is not callable")
  | .ok (some t) => g_invert_apply t P selfP2 s x

/-- GLMPCA.py, compute_saturated_params, common tail: the branch result is
clipped elementwise to [-max_param, max_param] (out of place), the stored
saturated intercept is subtracted when with_intercept (out of place,
raising when the intercept was never fit), and the result is cloned. -/
def csp_finish (with_intercept : Bool) (saturated_intercept : Option (List EVal))
    (max_param : ℚ) : Store × PyResult Ref → Store × PyResult Ref
  | (s1, .exn e) => (s1, .exn e)
  | (s1, .ok sp) =>
    let a2 := alloc s1 (matMap (EVal.clipR max_param) (readBuf s1 sp))
    match with_intercept, saturated_intercept with
    | true, none => (a2.1, .exn "AttributeError: NoneType")
    | true, some ic =>
      let a3 := alloc a2.1 (matZipCol EVal.sub (readBuf a2.1 a2.2) ic)
      let a4 := alloc a3.1 (readBuf a3.1 a3.2)
      (a4.1, .ok a4.2)
    | false, _ =>
      let a3 := alloc a2.1 (readBuf a2.1 a2.2)
      (a3.1, .ok a3.2)

/-- GLMPCA.py, GLMPCA.compute_saturated_params: family dispatch over the
branches, then the common clip / intercept / clone tail.  selfP is the
estimator-held exp_family_params, argP the exp_family_params argument,
saturated_intercept the stored saturated_intercept_, max_param the
absolutized estimator hyperparameter. -/
def compute_saturated_params (family : String) (P : Prims)
    (selfP argP : Option FamParams) (with_intercept save_family_params : Bool)
    (saturated_intercept : Option (List EVal)) (max_param : ℚ) (nJobs : ℕ)
    (s : Store) (x : Ref) : Store × PyResult Ref :=
  csp_finish with_intercept saturated_intercept max_param
    (if pyLower family ∈ ["negative_binomial", "nb", "negative_binomial_reparam", "nb_rep"] then
      csp_nb_branch family P selfP argP save_family_params s x
    else if pyLower family ∈ ["beta_reparam", "beta_rep"] then
      csp_beta_rep_branch family P selfP argP save_family_params nJobs s x
    else if pyLower family ∈ ["beta"] then
      csp_beta_branch family P selfP argP save_family_params nJobs s x
    else if pyLower family ∈ ["log_normal", "log normal", "lognorm"] then
      csp_log_normal_branch family P selfP argP save_family_params s x
    else if pyLower family ∈ ["gamma"] then
      csp_gamma_branch family P selfP argP save_family_params nJobs s x
    else
      csp_generic_branch family P selfP save_family_params s x)


/-!
## Frame and bound lemmas for compute_saturated_params
-/

lemma getD_append_left {α : Type} (l l2 : List α) (i : ℕ) (d : α)
    (h : i < l.length) : (l ++ l2).getD i d = l.getD i d := by
  induction l generalizing i with
  | nil => simp at h
  | cons hd tl ih =>
    cases i with
    | zero => rfl
    | succ i => exact ih i (by simp only [List.length_cons] at h; omega)

lemma getD_append_self {α : Type} (l : List α) (a d : α) :
    (l ++ [a]).getD l.length d = a := by
  induction l with
  | nil => rfl
  | cons hd tl ih => simp only [List.cons_append, List.length_cons, List.getD_cons_succ]; exact ih

lemma getD_set_ne {α : Type} (l : List α) (i j : ℕ) (a d : α) (h : i ≠ j) :
    (l.set i a).getD j d = l.getD j d := by
  induction l generalizing i j with
  | nil => rfl
  | cons hd tl ih =>
    cases i with
    | zero => cases j with
      | zero => omega
      | succ j => rfl
    | succ i =>
      cases j with
      | zero => rfl
      | succ j => exact ih i j (by omega)

/-- The buffers below index n after a store operation are the buffers
before it. -/
def preservedBelow (n : ℕ) (s s2 : Store) : Prop :=
  n ≤ s2.length ∧ ∀ b, b < n → readBuf s2 b = readBuf s b

lemma pb_refl {n : ℕ} {s : Store} (h : n ≤ s.length) : preservedBelow n s s :=
  ⟨h, fun _ _ => rfl⟩

lemma pb_trans {n : ℕ} {s1 s2 s3 : Store} (h1 : preservedBelow n s1 s2)
    (h2 : preservedBelow n s2 s3) : preservedBelow n s1 s3 :=
  ⟨h2.1, fun b hb => (h2.2 b hb).trans (h1.2 b hb)⟩

lemma pb_alloc {n : ℕ} {s : Store} (m : Mat) (h : n ≤ s.length) :
    preservedBelow n s (alloc s m).1 :=
  ⟨by simp [alloc]; omega,
   fun b hb => getD_append_left s [m] b [] (by omega)⟩

lemma pb_set {n : ℕ} {s : Store} (t : Ref) (m : Mat) (h : n ≤ s.length)
    (ht : n ≤ t) : preservedBelow n s (setBuf s t m) :=
  ⟨by simp [setBuf]; omega,
   fun b hb => getD_set_ne s t b m [] (by omega)⟩

lemma alloc_length (s : Store) (m : Mat) : (alloc s m).1.length = s.length + 1 := by
  simp [alloc]

lemma readBuf_alloc_self (s : Store) (m : Mat) :
    readBuf (alloc s m).1 (alloc s m).2 = m := by
  simp [readBuf, alloc, getD_append_self]

lemma g_invert_apply_frame (t : GInvTag) (P : Prims) (params : Option FamParams)
    (s : Store) (x : Ref) (n : ℕ) (h : n ≤ s.length) :
    preservedBelow n s (g_invert_apply t P params s x).1 := by
  cases t with
  | bernoulli =>
    dsimp only [g_invert_apply, g_invert_bernoulli]
    exact pb_trans (pb_alloc _ h) (pb_alloc _ (by rw [alloc_length]; omega))
  | continuousBernoulli =>
    dsimp only [g_invert_apply, g_invert_continuous_bernoulli]
    refine pb_trans (pb_alloc _ h)
      (pb_trans (pb_set _ _ (by rw [alloc_length]; omega) (by simp [alloc]; omega))
        (pb_set _ _ (by simp [setBuf, alloc]; omega) (by simp [alloc]; omega)))
  | gaussian => exact pb_refl h
  | poisson =>
    dsimp only [g_invert_apply, g_invert_poisson]
    refine pb_trans (pb_alloc _ h)
      (pb_trans (pb_set _ _ (by rw [alloc_length]; omega) (by simp [alloc]; omega))
        (pb_set _ _ (by simp [setBuf, alloc]; omega) (by simp [alloc]; omega)))
  | negativeBinomial =>
    dsimp only [g_invert_apply]
    unfold g_invert_negative_binomial
    split
    · exact pb_refl h
    · split
      · exact pb_refl h
      · exact pb_alloc _ h
  | negativeBinomialReparam =>
    dsimp only [g_invert_apply]
    unfold g_invert_negative_binomial_reparametrized
    split
    · exact pb_refl h
    · split
      · exact pb_refl h
      · split
        · split
          · exact pb_refl h
          · exact pb_alloc _ h
        · exact pb_alloc _ h
  | beta =>
    dsimp only [g_invert_apply]
    unfold g_invert_beta
    split
    · exact pb_refl h
    · split
      · exact pb_refl h
      · exact pb_alloc _ h
  | betaReparam =>
    dsimp only [g_invert_apply]
    unfold g_invert_beta_reparametrized
    split
    · exact pb_refl h
    · split
      · exact pb_refl h
      · exact pb_alloc _ h
  | logNormal =>
    dsimp only [g_invert_apply, g_invert_log_normal]
    exact pb_alloc _ h
  | gamma =>
    dsimp only [g_invert_apply]
    unfold g_invert_gamma
    split
    · exact pb_refl h
    · split
      · exact pb_refl h
      · exact pb_alloc _ h

lemma csp_nb_branch_frame (family : String) (P : Prims)
    (selfP argP : Option FamParams) (saveF : Bool) (s : Store) (x : Ref)
    (n : ℕ) (h : n ≤ s.length) :
    preservedBelow n s (csp_nb_branch family P selfP argP saveF s x).1 := by
  unfold csp_nb_branch
  dsimp only
  split
  · exact pb_refl h
  · split
    · exact pb_trans (pb_alloc _ h) (pb_refl (by rw [alloc_length]; omega))
    · exact pb_trans (pb_alloc _ h) (pb_refl (by rw [alloc_length]; omega))
    · exact pb_trans (pb_alloc _ h)
        (g_invert_apply_frame _ P _ _ _ n (by rw [alloc_length]; omega))

lemma csp_beta_rep_branch_frame (family : String) (P : Prims)
    (selfP argP : Option FamParams) (saveF : Bool) (nJobs : ℕ) (s : Store)
    (x : Ref) (n : ℕ) (h : n ≤ s.length) :
    preservedBelow n s (csp_beta_rep_branch family P selfP argP saveF nJobs s x).1 := by
  unfold csp_beta_rep_branch
  dsimp only
  split
  · exact pb_refl h
  · split
    · exact pb_refl h
    · exact pb_refl h
    · exact g_invert_apply_frame _ P _ _ _ n h

lemma csp_beta_branch_frame (family : String) (P : Prims)
    (selfP argP : Option FamParams) (saveF : Bool) (nJobs : ℕ) (s : Store)
    (x : Ref) (n : ℕ) (h : n ≤ s.length) :
    preservedBelow n s (csp_beta_branch family P selfP argP saveF nJobs s x).1 := by
  unfold csp_beta_branch
  dsimp only
  split
  · exact pb_refl h
  · split
    · exact pb_refl h
    · exact pb_refl h
    · exact g_invert_apply_frame _ P _ _ _ n h

lemma csp_log_normal_branch_frame (family : String) (P : Prims)
    (selfP argP : Option FamParams) (saveF : Bool) (s : Store) (x : Ref)
    (n : ℕ) (h : n ≤ s.length) :
    preservedBelow n s (csp_log_normal_branch family P selfP argP saveF s x).1 := by
  unfold csp_log_normal_branch
  dsimp only
  split
  · exact pb_refl h
  · exact pb_refl h
  · exact g_invert_apply_frame _ P _ _ _ n h

lemma csp_gamma_branch_frame (family : String) (P : Prims)
    (selfP argP : Option FamParams) (saveF : Bool) (nJobs : ℕ) (s : Store)
    (x : Ref) (n : ℕ) (h : n ≤ s.length) :
    preservedBelow n s (csp_gamma_branch family P selfP argP saveF nJobs s x).1 := by
  unfold csp_gamma_branch
  dsimp only
  split
  · exact pb_refl h
  · exact pb_refl h
  · exact g_invert_apply_frame _ P _ _ _ n h

lemma csp_generic_branch_frame (family : String) (P : Prims)
    (selfP : Option FamParams) (saveF : Bool) (s : Store) (x : Ref)
    (n : ℕ) (h : n ≤ s.length) :
    preservedBelow n s (csp_generic_branch family P selfP saveF s x).1 := by
  unfold csp_generic_branch
  dsimp only
  split
  · exact pb_refl h
  · exact pb_refl h
  · exact g_invert_apply_frame _ P _ _ _ n h

lemma csp_finish_frame (wI : Bool) (ι : Option (List EVal)) (m : ℚ)
    (br : Store × PyResult Ref) (n : ℕ) (h : n ≤ br.1.length) :
    preservedBelow n br.1 (csp_finish wI ι m br).1 := by
  rcases br with ⟨s1, pr⟩
  simp only at h
  cases pr with
  | exn e => exact pb_refl h
  | ok sp =>
    dsimp only [csp_finish]
    cases wI with
    | false =>
      exact pb_trans (pb_alloc _ h) (pb_alloc _ (by rw [alloc_length]; omega))
    | true =>
      cases ι with
      | none => exact pb_alloc _ h
      | some ic =>
        exact pb_trans (pb_alloc _ h)
          (pb_trans (pb_alloc _ (by rw [alloc_length]; omega))
            (pb_alloc _ (by rw [alloc_length, alloc_length]; omega)))

lemma csp_finish_comp (wI : Bool) (ι : Option (List EVal)) (m : ℚ)
    (br : Store × PyResult Ref) (n : ℕ) (s : Store)
    (hb : preservedBelow n s br.1) :
    preservedBelow n s (csp_finish wI ι m br).1 :=
  pb_trans hb (csp_finish_frame wI ι m br n hb.1)

lemma compute_saturated_params_frame (family : String) (P : Prims)
    (selfP argP : Option FamParams) (wI saveF : Bool)
    (ι : Option (List EVal)) (m : ℚ) (nJ : ℕ) (s : Store) (x : Ref)
    (n : ℕ) (h : n ≤ s.length) :
    preservedBelow n s
      (compute_saturated_params family P selfP argP wI saveF ι m nJ s x).1 := by
  unfold compute_saturated_params
  apply csp_finish_comp
  split_ifs
  · exact csp_nb_branch_frame family P selfP argP saveF s x n h
  · exact csp_beta_rep_branch_frame family P selfP argP saveF nJ s x n h
  · exact csp_beta_branch_frame family P selfP argP saveF nJ s x n h
  · exact csp_log_normal_branch_frame family P selfP argP saveF s x n h
  · exact csp_gamma_branch_frame family P selfP argP saveF nJ s x n h
  · exact csp_generic_branch_frame family P selfP saveF s x n h

/-- C10.  compute_saturated_params never mutates the caller data matrix:
whatever the family, parameters and flags, the buffer holding X reads the
same after the call as before it (the poisson and continuous-bernoulli
inverse links deepcopy before their in-place boundary assignments, every
other branch only allocates fresh buffers). -/
theorem claim_C10 (family : String) (P : Prims) (selfP argP : Option FamParams)
    (wI saveF : Bool) (ι : Option (List EVal)) (m : ℚ) (nJ : ℕ)
    (s : Store) (x : Ref) (h : x < s.length) :
    readBuf (compute_saturated_params family P selfP argP wI saveF ι m nJ s x).1 x
      = readBuf s x :=
  (compute_saturated_params_frame family P selfP argP wI saveF ι m nJ s x
    s.length le_rfl).2 x h

lemma eval_clipR_bound (m : ℚ) (hm : 0 ≤ m) (v : EVal)
    (hne : EVal.clipR m v ≠ EVal.nan) :
    ∃ q : ℚ, EVal.clipR m v = EVal.val q ∧ |q| ≤ m := by
  cases v with
  | nan => exact absurd rfl hne
  | inf => exact ⟨m, rfl, by rw [abs_of_nonneg hm]⟩
  | ninf => exact ⟨-m, rfl, by rw [abs_neg, abs_of_nonneg hm]⟩
  | val q =>
    refine ⟨min (max q (-m)) m, rfl, abs_le.mpr ⟨?_, min_le_right _ _⟩⟩
    exact le_min (le_max_right _ _) (by linarith)

lemma csp_finish_ok_bound (ι : Option (List EVal)) (m : ℚ)
    (br : Store × PyResult Ref) (s2 : Store) (rr : Ref) (hm : 0 ≤ m)
    (h : csp_finish false ι m br = (s2, .ok rr)) :
    ∀ row ∈ readBuf s2 rr, ∀ e ∈ row, e ≠ EVal.nan →
      ∃ q : ℚ, e = EVal.val q ∧ |q| ≤ m := by
  rcases br with ⟨s1, pr⟩
  cases pr with
  | exn e => exact absurd h (by simp [csp_finish])
  | ok sp =>
    dsimp only [csp_finish] at h
    rw [Prod.mk.injEq] at h
    obtain ⟨hs2, hrr⟩ := h
    rw [PyResult.ok.injEq] at hrr
    have hread : readBuf s2 rr = matMap (EVal.clipR m) (readBuf s1 sp) := by
      rw [← hs2, ← hrr, readBuf_alloc_self, readBuf_alloc_self]
    rw [hread]
    intro row hrow e he hne
    simp only [matMap, List.mem_map] at hrow
    obtain ⟨row0, -, hrow0⟩ := hrow
    subst hrow0
    simp only [List.mem_map] at he
    obtain ⟨v, -, hv⟩ := he
    subst hv
    exact eval_clipR_bound m hm v hne

/-- The matrix a compute_saturated_params run returns (the empty matrix
when the run raised). -/
def csp_result_mat (res : Store × PyResult Ref) : Mat :=
  match res with
  | (s2, .ok rr) => readBuf s2 rr
  | (_, .exn _) => []

/-- C2 amended.  With with_intercept false, every non-NaN entry of the
matrix returned by compute_saturated_params has absolute value at most
max_param, for every family, input and parameters: the elementwise clip to
[-max_param, max_param] is the last value-changing step on that path. -/
theorem claim_C2_amended (family : String) (P : Prims)
    (selfP argP : Option FamParams) (saveF : Bool) (ι : Option (List EVal))
    (m : ℚ) (nJ : ℕ) (s : Store) (x : Ref) (hm : 0 ≤ m) :
    ∀ row ∈ csp_result_mat
        (compute_saturated_params family P selfP argP false saveF ι m nJ s x),
      ∀ e ∈ row, e ≠ EVal.nan → ∃ q : ℚ, e = EVal.val q ∧ |q| ≤ m := by
  rcases hres : compute_saturated_params family P selfP argP false saveF ι m nJ s x
    with ⟨s2, pr⟩
  cases pr with
  | exn e => simp [csp_result_mat]
  | ok rr =>
    have hb := csp_finish_ok_bound ι m _ s2 rr hm
      (by unfold compute_saturated_params at hres; exact hres)
    simpa [csp_result_mat] using hb

/-- A concrete primitive bundle for evaluating the model on closed
inputs. -/
def trivialPrims : Prims :=
  { log := fun _ => EVal.val 0
    lnThreshold := 0
    gammaThreshold := 0
    compute_alpha_gene := fun _ _ => []
    compute_mu_gene := fun _ _ => []
    compute_gamma_saturated_params_gene := fun _ _ => []
    compute_dispersion := fun _ => []
    beta_fit_nu := fun _ => EVal.val 0
    beta_fit_b := fun _ => EVal.val 0
    lognorm_fit_shape := fun _ => EVal.val 0
    gamma_fit_nu := fun _ => EVal.val 0 }

/-- C2 counterexample.  Under the default with_intercept, the stored
intercept is subtracted after the clip: with max_param 1, data entry 5 and
stored intercept -1 the gaussian family returns the entry 2, whose
absolute value exceeds max_param. -/
theorem claim_C2_counterexample :
    csp_result_mat (compute_saturated_params "gaussian" trivialPrims none none
      true false (some [EVal.val (-1)]) 1 0 [[[EVal.val 5]]] 0)
      = [[EVal.val 2]] ∧
    ¬ (|(2 : ℚ)| ≤ 1) := by
  constructor
  · have h1 : ¬ (pyLower "gaussian" ∈
        ["negative_binomial", "nb", "negative_binomial_reparam", "nb_rep"]) := by decide
    have h2 : ¬ (pyLower "gaussian" ∈ ["beta_reparam", "beta_rep"]) := by decide
    have h3 : pyLower "gaussian" ≠ "beta" := by decide
    have h4 : ¬ (pyLower "gaussian" ∈ ["log_normal", "log normal", "lognorm"]) := by decide
    have h5 : pyLower "gaussian" ≠ "gamma" := by decide
    have hg : g_invertfun "gaussian" = .ok (some GInvTag.gaussian) := by decide
    simp [compute_saturated_params, h1, h2, h3, h4, h5, csp_generic_branch, hg,
      g_invert_apply, g_invert_gaussian, csp_finish, alloc, readBuf, setBuf,
      matMap, matZipCol, csp_result_mat, EVal.clipR, EVal.sub, EVal.add,
      EVal.neg, min_def, max_def, List.getElem?_cons_zero, List.getElem?_cons_succ]
    norm_num
  · norm_num

/-- C2 witness: the amended bound instantiated on a concrete gaussian
run. -/
theorem claim_C2_witness :
    (0 : ℚ) ≤ 1 ∧
    ∀ row ∈ csp_result_mat (compute_saturated_params "gaussian" trivialPrims
        none none false false none 1 0 [[[EVal.val 5]]] 0),
      ∀ e ∈ row, e ≠ EVal.nan → ∃ q : ℚ, e = EVal.val q ∧ |q| ≤ 1 :=
  ⟨zero_le_one,
   claim_C2_amended "gaussian" trivialPrims none none false none 1 0
     [[[EVal.val 5]]] 0 zero_le_one⟩

/-- C10 witness: the frame property instantiated on a concrete gaussian
run. -/
theorem claim_C10_witness :
    (0 : ℕ) < 1 ∧
    readBuf (compute_saturated_params "gaussian" trivialPrims none none false false
      none 1 0 [[[EVal.val 5]]] 0).1 0 = readBuf [[[EVal.val 5]]] 0 :=
  ⟨Nat.zero_lt_one,
   claim_C10 "gaussian" trivialPrims none none false false none 1 0
     [[[EVal.val 5]]] 0 Nat.zero_lt_one⟩

/-!
## Persistence (GLMPCA.py, save and load)

The estimator state and the files of a saved model directory are modelled
as records; a tensor is a matrix of float values, an intercept a vector.
Pickle round-trips values unchanged, torch.save and torch.load round-trip
tensors unchanged in this device-erased model (the source moves tensors to
the CPU on save and to the requested device on load).
-/

/-- The fields of the GLMPCA estimator touched by save and load. -/
structure GLMPCAState where
  n_pc : ℤ
  family : String
  maxiter : ℤ
  log_part_theta_matrices_ : Option Mat
  max_param : ℚ
  learning_rate_ : ℚ
  initial_learning_rate_ : ℚ
  saturated_loadings_ : Option Mat
  saturated_intercept_ : Option (List EVal)
  reconstruction_intercept_ : Option (List EVal)
  saturated_scores_ : Option Mat
  exp_family_params : Option FamParams
  projected_orthogonal_scores_svd_ : Option (List Mat)
deriving DecidableEq, Repr

/-- GLMPCA.py, GLMPCA.__init__ restricted to the persisted fields: fit
state starts empty, max_param is stored as its absolute value. -/
def GLMPCA_init (n_pc : ℤ) (family : String) (maxiter : ℤ) (max_param : ℚ)
    (learning_rate : ℚ) : GLMPCAState :=
  { n_pc := n_pc
    family := family
    maxiter := maxiter
    log_part_theta_matrices_ := none
    max_param := |max_param|
    learning_rate_ := learning_rate
    initial_learning_rate_ := learning_rate
    saturated_loadings_ := none
    saturated_intercept_ := none
    reconstruction_intercept_ := none
    saturated_scores_ := none
    exp_family_params := none
    projected_orthogonal_scores_svd_ := none }

/-- The record serialized into params.pkl. -/
structure ParamsPkl where
  n_pc : ℤ
  family : String
  maxiter : ℤ
  log_part_theta_matrices_ : Option Mat
  max_param : ℚ
  learning_rate_ : ℚ
  initial_learning_rate_ : ℚ
deriving DecidableEq, Repr

/-- The files of a saved model directory; an absent optional file is
none. -/
structure SavedFolder where
  params_pkl : ParamsPkl
  saturated_loadings_pt : Option Mat
  saturated_intercept_pt : Option (List EVal)
  saturated_scores_pt : Option Mat
  exp_family_params_pkl : Option FamParams
  projected_orthogonal_scores_svd_pkl : Option (List Mat)
deriving DecidableEq, Repr

namespace GLMPCA

/-- GLMPCA.py, GLMPCA.save: always writes params.pkl with the seven
hyperparameter fields; writes each fitted-state file only when the field is
set. -/
def save (self : GLMPCAState) : SavedFolder :=
  { params_pkl :=
      { n_pc := self.n_pc
        family := self.family
        maxiter := self.maxiter
        log_part_theta_matrices_ := self.log_part_theta_matrices_
        max_param := self.max_param
        learning_rate_ := self.learning_rate_
        initial_learning_rate_ := self.initial_learning_rate_ }
    saturated_loadings_pt := self.saturated_loadings_
    saturated_intercept_pt := self.saturated_intercept_
    saturated_scores_pt := self.saturated_scores_
    exp_family_params_pkl := self.exp_family_params
    projected_orthogonal_scores_svd_pkl := self.projected_orthogonal_scores_svd_ }

/-- GLMPCA.py, GLMPCA.load: builds a placeholder instance, overwrites the
hyperparameters from params.pkl, then populates each optional field only
when its file is present; the single saturated_intercept_.pt file fills
both intercept fields. -/
def load (folder : SavedFolder) : GLMPCAState :=
  let instance0 := GLMPCA_init (-1) "NA" (-1) (-1) (-1)
  let instance1 :=
    { instance0 with
        n_pc := folder.params_pkl.n_pc
        family := folder.params_pkl.family
        maxiter := folder.params_pkl.maxiter
        log_part_theta_matrices_ := folder.params_pkl.log_part_theta_matrices_
        max_param := folder.params_pkl.max_param
        learning_rate_ := folder.params_pkl.learning_rate_
        initial_learning_rate_ := folder.params_pkl.initial_learning_rate_ }
  let instance2 :=
    match folder.saturated_loadings_pt with
    | some t => { instance1 with saturated_loadings_ := some t }
    | none => instance1
  let instance3 :=
    match folder.saturated_intercept_pt with
    | some t => { instance2 with
        saturated_intercept_ := some t
        reconstruction_intercept_ := some t }
    | none => instance2
  let instance4 :=
    match folder.saturated_scores_pt with
    | some t => { instance3 with saturated_scores_ := some t }
    | none => instance3
  let instance5 :=
    match folder.exp_family_params_pkl with
    | some p => { instance4 with exp_family_params := some p }
    | none => instance4
  match folder.projected_orthogonal_scores_svd_pkl with
  | some p => { instance5 with projected_orthogonal_scores_svd_ := some p }
  | none => instance5

end GLMPCA

/-- C5.  For a fitted estimator (loadings and intercept set), loading what
save wrote reproduces the six hyperparameters exactly, reproduces the
loadings and intercept tensors exactly, and populates both intercept
fields identically from the single saturated intercept file. -/
theorem claim_C5 (self : GLMPCAState) (L : Mat) (ic : List EVal)
    (hL : self.saturated_loadings_ = some L)
    (hI : self.saturated_intercept_ = some ic) :
    (GLMPCA.load (GLMPCA.save self)).n_pc = self.n_pc ∧
    (GLMPCA.load (GLMPCA.save self)).family = self.family ∧
    (GLMPCA.load (GLMPCA.save self)).maxiter = self.maxiter ∧
    (GLMPCA.load (GLMPCA.save self)).max_param = self.max_param ∧
    (GLMPCA.load (GLMPCA.save self)).learning_rate_ = self.learning_rate_ ∧
    (GLMPCA.load (GLMPCA.save self)).initial_learning_rate_
      = self.initial_learning_rate_ ∧
    (GLMPCA.load (GLMPCA.save self)).saturated_loadings_ = some L ∧
    (GLMPCA.load (GLMPCA.save self)).saturated_intercept_ = some ic ∧
    (GLMPCA.load (GLMPCA.save self)).reconstruction_intercept_ = some ic := by
  unfold GLMPCA.load GLMPCA.save
  rcases hsc : self.saturated_scores_ with - | sc <;>
    rcases hep : self.exp_family_params with - | ep <;>
      rcases hsvd : self.projected_orthogonal_scores_svd_ with - | svd <;>
        simp [hL, hI, hsc, hep, hsvd]

/-- C5 witness: the round-trip instantiated on a concrete fitted
estimator. -/
theorem claim_C5_witness :
    ({ GLMPCA_init 2 "poisson" 10 3 1 with
        saturated_loadings_ := some [[EVal.val 1]]
        saturated_intercept_ := some [EVal.val 7] } : GLMPCAState).saturated_loadings_
      = some [[EVal.val 1]] ∧
    (GLMPCA.load (GLMPCA.save { GLMPCA_init 2 "poisson" 10 3 1 with
        saturated_loadings_ := some [[EVal.val 1]]
        saturated_intercept_ := some [EVal.val 7] })).saturated_intercept_
      = some [EVal.val 7] := by
  refine ⟨rfl, ?_⟩
  have h := claim_C5 { GLMPCA_init 2 "poisson" 10 3 1 with
      saturated_loadings_ := some [[EVal.val 1]]
      saturated_intercept_ := some [EVal.val 7] } [[EVal.val 1]] [EVal.val 7] rfl rfl
  exact h.2.2.2.2.2.2.2.1

/-- C6 counterexample.  Case variants of the exactly-matched family names
do not dispatch: G_fun on Gaussian falls through every branch and returns
None, unlike lowercase gaussian. -/
theorem claim_C6_counterexample :
    G_fun "Gaussian" = .ok none ∧ G_fun "gaussian" = .ok (some GTag.gaussian) := by
  constructor <;> decide

/-- C6 amended.  The alias groups matched through family.lower() are
case-insensitive in all four dispatchers: any string whose lowering equals
one of the aliases of negative_binomial, negative_binomial_reparam, beta,
beta_reparam, log_normal or gamma selects that family implementation.  (The
five names matched by plain equality - gaussian, bernoulli,
continuous_bernoulli, poisson, multinomial - are case-sensitive, as the
counterexample shows.) -/
theorem claim_C6_amended (s : String) :
    (pyLower s ∈ ["negative_binomial", "nb"] →
      G_fun s = .ok (some GTag.negativeBinomial) ∧
      G_grad_fun s = .ok (some GGradTag.negativeBinomial) ∧
      g_invertfun s = .ok (some GInvTag.negativeBinomial) ∧
      expt_term s = .ok (some ExptTag.negativeBinomial)) ∧
    (pyLower s ∈ ["negative_binomial_reparam", "nb_rep"] →
      G_fun s = .ok (some GTag.negativeBinomialReparam) ∧
      G_grad_fun s = .ok (some GGradTag.negativeBinomialReparam) ∧
      g_invertfun s = .ok (some GInvTag.negativeBinomialReparam) ∧
      expt_term s = .ok (some ExptTag.negativeBinomialReparam)) ∧
    (pyLower s ∈ ["beta"] →
      G_fun s = .ok (some GTag.beta) ∧
      G_grad_fun s = .ok (some GGradTag.beta) ∧
      g_invertfun s = .ok (some GInvTag.beta) ∧
      expt_term s = .ok (some ExptTag.beta)) ∧
    (pyLower s ∈ ["beta_reparam", "beta_rep"] →
      G_fun s = .ok (some GTag.betaReparam) ∧
      G_grad_fun s = .ok (some GGradTag.betaReparam) ∧
      g_invertfun s = .ok (some GInvTag.betaReparam) ∧
      expt_term s = .ok (some ExptTag.betaReparam)) ∧
    (pyLower s ∈ ["log_normal", "log normal", "lognorm"] →
      G_fun s = .ok (some GTag.logNormal) ∧
      G_grad_fun s = .ok (some GGradTag.logNormal) ∧
      g_invertfun s = .ok (some GInvTag.logNormal) ∧
      expt_term s = .ok (some ExptTag.logNormal)) ∧
    (pyLower s ∈ ["gamma"] →
      G_fun s = .ok (some GTag.gamma) ∧
      G_grad_fun s = .ok (some GGradTag.gamma) ∧
      g_invertfun s = .ok (some GInvTag.gamma) ∧
      expt_term s = .ok (some ExptTag.gamma)) := by
  refine ⟨?_, ?_, ?_, ?_, ?_, ?_⟩
  · intro h
    have hm : pyLower s = "negative_binomial" ∨ pyLower s = "nb" := by simpa using h
    have h1 : s ≠ "bernoulli" := fun he => by rw [he] at hm; revert hm; decide
    have h2 : s ≠ "continuous_bernoulli" := fun he => by rw [he] at hm; revert hm; decide
    have h3 : s ≠ "poisson" := fun he => by rw [he] at hm; revert hm; decide
    have h4 : s ≠ "gaussian" := fun he => by rw [he] at hm; revert hm; decide
    have h5 : s ≠ "multinomial" := fun he => by rw [he] at hm; revert hm; decide
    refine ⟨?_, ?_, ?_, ?_⟩ <;>
      simp only [G_fun, G_grad_fun, g_invertfun, expt_term] <;>
      rw [if_neg h1, if_neg h2, if_neg h3, if_neg h4, if_neg h5] <;>
      rcases hm with heq | heq <;> rw [heq] <;> decide
  · intro h
    have hm : pyLower s = "negative_binomial_reparam" ∨ pyLower s = "nb_rep" := by
      simpa using h
    have h1 : s ≠ "bernoulli" := fun he => by rw [he] at hm; revert hm; decide
    have h2 : s ≠ "continuous_bernoulli" := fun he => by rw [he] at hm; revert hm; decide
    have h3 : s ≠ "poisson" := fun he => by rw [he] at hm; revert hm; decide
    have h4 : s ≠ "gaussian" := fun he => by rw [he] at hm; revert hm; decide
    have h5 : s ≠ "multinomial" := fun he => by rw [he] at hm; revert hm; decide
    refine ⟨?_, ?_, ?_, ?_⟩ <;>
      simp only [G_fun, G_grad_fun, g_invertfun, expt_term] <;>
      rw [if_neg h1, if_neg h2, if_neg h3, if_neg h4, if_neg h5] <;>
      rcases hm with heq | heq <;> rw [heq] <;> decide
  · intro h
    have hm : pyLower s = "beta" := by simpa using h
    have h1 : s ≠ "bernoulli" := fun he => by rw [he] at hm; revert hm; decide
    have h2 : s ≠ "continuous_bernoulli" := fun he => by rw [he] at hm; revert hm; decide
    have h3 : s ≠ "poisson" := fun he => by rw [he] at hm; revert hm; decide
    have h4 : s ≠ "gaussian" := fun he => by rw [he] at hm; revert hm; decide
    have h5 : s ≠ "multinomial" := fun he => by rw [he] at hm; revert hm; decide
    refine ⟨?_, ?_, ?_, ?_⟩ <;>
      simp only [G_fun, G_grad_fun, g_invertfun, expt_term] <;>
      rw [if_neg h1, if_neg h2, if_neg h3, if_neg h4, if_neg h5, hm] <;> decide
  · intro h
    have hm : pyLower s = "beta_reparam" ∨ pyLower s = "beta_rep" := by simpa using h
    have h1 : s ≠ "bernoulli" := fun he => by rw [he] at hm; revert hm; decide
    have h2 : s ≠ "continuous_bernoulli" := fun he => by rw [he] at hm; revert hm; decide
    have h3 : s ≠ "poisson" := fun he => by rw [he] at hm; revert hm; decide
    have h4 : s ≠ "gaussian" := fun he => by rw [he] at hm; revert hm; decide
    have h5 : s ≠ "multinomial" := fun he => by rw [he] at hm; revert hm; decide
    refine ⟨?_, ?_, ?_, ?_⟩ <;>
      simp only [G_fun, G_grad_fun, g_invertfun, expt_term] <;>
      rw [if_neg h1, if_neg h2, if_neg h3, if_neg h4, if_neg h5] <;>
      rcases hm with heq | heq <;> rw [heq] <;> decide
  · intro h
    have hm : pyLower s = "log_normal" ∨ pyLower s = "log normal" ∨
        pyLower s = "lognorm" := by simpa using h
    have h1 : s ≠ "bernoulli" := fun he => by rw [he] at hm; revert hm; decide
    have h2 : s ≠ "continuous_bernoulli" := fun he => by rw [he] at hm; revert hm; decide
    have h3 : s ≠ "poisson" := fun he => by rw [he] at hm; revert hm; decide
    have h4 : s ≠ "gaussian" := fun he => by rw [he] at hm; revert hm; decide
    have h5 : s ≠ "multinomial" := fun he => by rw [he] at hm; revert hm; decide
    refine ⟨?_, ?_, ?_, ?_⟩ <;>
      simp only [G_fun, G_grad_fun, g_invertfun, expt_term] <;>
      rw [if_neg h1, if_neg h2, if_neg h3, if_neg h4, if_neg h5] <;>
      rcases hm with heq | heq | heq <;> rw [heq] <;> decide
  · intro h
    have hm : pyLower s = "gamma" := by simpa using h
    have h1 : s ≠ "bernoulli" := fun he => by rw [he] at hm; revert hm; decide
    have h2 : s ≠ "continuous_bernoulli" := fun he => by rw [he] at hm; revert hm; decide
    have h3 : s ≠ "poisson" := fun he => by rw [he] at hm; revert hm; decide
    have h4 : s ≠ "gaussian" := fun he => by rw [he] at hm; revert hm; decide
    have h5 : s ≠ "multinomial" := fun he => by rw [he] at hm; revert hm; decide
    refine ⟨?_, ?_, ?_, ?_⟩ <;>
      simp only [G_fun, G_grad_fun, g_invertfun, expt_term] <;>
      rw [if_neg h1, if_neg h2, if_neg h3, if_neg h4, if_neg h5, hm] <;> decide

/-- C6 witness: the case-insensitive alias group instantiated at NB. -/
theorem claim_C6_witness :
    G_fun "NB" = .ok (some GTag.negativeBinomial) ∧
    G_grad_fun "NB" = .ok (some GGradTag.negativeBinomial) ∧
    g_invertfun "NB" = .ok (some GInvTag.negativeBinomial) ∧
    expt_term "NB" = .ok (some ExptTag.negativeBinomial) :=
  (claim_C6_amended "NB").1 (by decide)

/-!
## Nuisance-parameter movers and the loading-fit guard (GLMPCA.py)
-/

/-- A Python value held in the exp_family_params dict: a tensor with its
device, or a plain number (such as n_jobs). -/
inductive PVal where
  | tensor (data : Mat) (device : String)
  | pyNat (n : ℕ)
  | pyFloat (q : ℚ)
deriving DecidableEq, Repr

/-- x.cpu() / x.to(device): moves a tensor, is never reached for other
values. -/
def moveTo (v : PVal) (device : String) : PVal :=
  match v with
  | .tensor d _ => .tensor d device
  | x => x

/-- The guard of both movers in the source is written
type(params[k]) is torch.Tensor() - with parentheses - so the type object
of the entry is compared by identity against a freshly constructed empty
tensor instance.  A type object is never the same object as a tensor
value, hence the guard evaluates to False for every entry. -/
def typeIsTensorInstance (_v : PVal) : Bool := false

namespace GLMPCA

/-- GLMPCA.py, GLMPCA.exp_family_params_cpu: None passes through; otherwise
a dict comprehension copies the mapping, moving an entry to the CPU when
the (always false) guard holds. -/
def exp_family_params_cpu (exp_family_params : Option (List (String × PVal))) :
    Option (List (String × PVal)) :=
  match exp_family_params with
  | none => none
  | some ps => some (ps.map fun kv =>
      (kv.1, if typeIsTensorInstance kv.2 then moveTo kv.2 "cpu" else kv.2))

/-- GLMPCA.py, GLMPCA.exp_family_params_gpu: same comprehension with the
detected active device. -/
def exp_family_params_gpu (device : String)
    (exp_family_params : Option (List (String × PVal))) :
    Option (List (String × PVal)) :=
  match exp_family_params with
  | none => none
  | some ps => some (ps.map fun kv =>
      (kv.1, if typeIsTensorInstance kv.2 then moveTo kv.2 device else kv.2))

end GLMPCA

/-- C7 exhibit.  Because the movers compare the entry type against a tensor
instance, no entry is ever moved: both movers return the mapping with every
entry unchanged, in particular a tensor living on cuda stays on cuda after
exp_family_params_cpu. -/
theorem claim_C7 (ps : List (String × PVal)) (device : String) :
    GLMPCA.exp_family_params_cpu (some ps) = some ps ∧
    GLMPCA.exp_family_params_gpu device (some ps) = some ps ∧
    GLMPCA.exp_family_params_cpu (some [("r", PVal.tensor [[EVal.val 1]] "cuda")])
      = some [("r", PVal.tensor [[EVal.val 1]] "cuda")] := by
  refine ⟨?_, ?_, rfl⟩ <;>
    simp [GLMPCA.exp_family_params_cpu, GLMPCA.exp_family_params_gpu,
      typeIsTensorInstance]

/-- GLMPCA.py, LEARNING_RATE_LIMIT = 10**(-20). -/
def LEARNING_RATE_LIMIT : ℚ := 1 / 10 ^ 20

/-- The estimator fields read and written around the loading-fit guard. -/
structure LoadingIterState where
  learning_rate_ : ℚ
  loadings_learning_scores_ : List (List ℚ)
  loadings_learning_rates_ : List (List ℚ)

namespace GLMPCA

/-- GLMPCA.py, GLMPCA._saturated_loading_iter: the guard raising on a
learning rate below LEARNING_RATE_LIMIT is the first statement of the
procedure; everything after that (device setup, the optimizer, the epoch
loop, the divergence restarts) is the body, which also produces the fitted
loadings and intercept. -/
def saturated_loading_iter (st : LoadingIterState)
    (body : LoadingIterState → LoadingIterState × (Mat × List EVal)) :
    LoadingIterState × PyResult (Mat × List EVal) :=
  if st.learning_rate_ < LEARNING_RATE_LIMIT then
    (st, .exn "LEARNING RATE IS TOO SMALL : DID NOT CONVERGE")
  else
    let r := body st
    (r.1, .ok r.2)

end GLMPCA

/-- C8.  A learning rate below 10^-20 makes the loading fit raise the
convergence-failure error immediately: the state is returned untouched (no
diagnostics appended, no loadings or intercept produced) and the outcome
does not depend on the optimization body at all. -/
theorem claim_C8 (st : LoadingIterState)
    (body1 body2 : LoadingIterState → LoadingIterState × (Mat × List EVal))
    (h : st.learning_rate_ < LEARNING_RATE_LIMIT) :
    GLMPCA.saturated_loading_iter st body1 =
      (st, .exn "LEARNING RATE IS TOO SMALL : DID NOT CONVERGE") ∧
    GLMPCA.saturated_loading_iter st body1 = GLMPCA.saturated_loading_iter st body2 := by
  constructor <;> simp [GLMPCA.saturated_loading_iter, if_pos h]

/-- C8 witness: the guard instantiated at a zero learning rate. -/
theorem claim_C8_witness :
    (0 : ℚ) < LEARNING_RATE_LIMIT ∧
    GLMPCA.saturated_loading_iter ⟨0, [], []⟩ (fun s => (s, ([], []))) =
      (⟨0, [], []⟩, .exn "LEARNING RATE IS TOO SMALL : DID NOT CONVERGE") :=
  ⟨by norm_num [LEARNING_RATE_LIMIT],
   (claim_C8 ⟨0, [], []⟩ (fun s => (s, ([], []))) (fun s => (s, ([], [])))
     (by norm_num [LEARNING_RATE_LIMIT])).1⟩
